import Mathlib

/-
Verification of the fMP4 streaming transform in src/mp4frag.py.

The embedding below translates the class `mp4frag` into pure Lean
functions.  Byte strings are `List Nat` (each entry a byte value),
object attributes that the Python code creates dynamically are `Option`
fields of an explicit state record, `time.time()*1000` is modelled as an
oracle stream of millisecond values carried in the state, and the
recursive tail-forwarding of the parser handlers is driven by a fuel
parameter (every real execution uses only a handful of dispatches per
input chunk, so any sufficiently large fuel computes the code's
behaviour exactly).
-/

namespace Mp4frag

abbrev Bytes := List Nat

/-- Box tag `ftyp` (class constant `_FTYP`). -/
def FTYP : Bytes := [0x66, 0x74, 0x79, 0x70]

/-- Box tag `moov` (class constant `_MOOV`). -/
def MOOV : Bytes := [0x6d, 0x6f, 0x6f, 0x76]

/-- Box tag `moof` (class constant `_MOOF`). -/
def MOOF : Bytes := [0x6d, 0x6f, 0x6f, 0x66]

/-- Box tag `mfra` (class constant `_MFRA`). -/
def MFRA : Bytes := [0x6d, 0x66, 0x72, 0x61]

/-- Box tag `mdat` (class constant `_MDAT`). -/
def MDAT : Bytes := [0x6d, 0x64, 0x61, 0x74]

/-- Box tag `mp4a` (class constant `_MP4A`). -/
def MP4A : Bytes := [0x6d, 0x70, 0x34, 0x61]

/-- Box tag `avcC` (class constant `_AVCC`). -/
def AVCC : Bytes := [0x61, 0x76, 0x63, 0x43]

/-- Helper for `bfind`: first index at or after `i` where `pat` occurs in
the remaining list, Python-style `-1` when absent. -/
def findSeqAux {α : Type} [DecidableEq α] (pat : List α) : List α → Nat → Int
  | [], i => if pat = [] then (i : Int) else -1
  | a :: t, i => if pat.isPrefixOf (a :: t) then (i : Int) else findSeqAux pat t (i + 1)

/-- Python `chunk.find(tag)` on bytes: lowest index of the subsequence,
`-1` when absent. -/
def bfind (chunk tag : Bytes) : Int := findSeqAux tag chunk 0

/-- Python `str.find` via the same scan over characters (used only in
statements about the rendered playlist text). -/
def strFind (s pat : String) : Int := findSeqAux pat.data s.data 0

/-- `_int(data)`: `int.from_bytes(data, byteorder='big', signed=False)`. -/
def bint (data : Bytes) : Nat := data.foldl (fun a b => a * 256 + b) 0

/-- Python slice `l[i:]` with an `int` index (negative indices count from
the end, clamped at 0; overlarge indices give `[]`). -/
def pySliceFrom (l : Bytes) (i : Int) : Bytes :=
  if i < 0 then l.drop ((l.length : Int) + i).toNat else l.drop i.toNat

/-- `_bsconcate(li, leng)`: concatenate a list of byte strings; when
`0 < leng ≤ len(result)` truncate to the first `leng` bytes. -/
def bsconcate (li : List Bytes) (leng : Int) : Bytes :=
  let res := li.flatten
  if leng ≤ 0 ∨ (res.length : Int) < leng then res else res.take leng.toNat

/-- Python truncation `int(x)` used by the `%d` format of a float: round
toward zero, computed on the canonical numerator/denominator pair. -/
def pyTrunc (q : ℚ) : Int := Int.tdiv q.num (q.den : Int)

/-- Python 3 `round(x)` on a float: nearest integer, ties to even.  The
comparison of the fractional part against one half is carried out on
integers (`2·frac·den` against `den`) so that it evaluates by kernel
reduction. -/
def pyRound (q : ℚ) : Int :=
  let f := Int.fdiv q.num (q.den : Int)
  let r2 := 2 * (q.num - f * (q.den : Int))
  if r2 < (q.den : Int) then f
  else if (q.den : Int) < r2 then f + 1
  else if f % 2 = 0 then f else f + 1

/-- Uppercase hexadecimal digit for a value below 16. -/
def hexDigit (n : Nat) : Char :=
  if n < 10 then Char.ofNat (48 + n) else Char.ofNat (55 + n)

/-- One byte rendered as two uppercase hexadecimal characters, as
`bytes.hex().upper()` renders it. -/
def byteHex (b : Nat) : String := String.mk [hexDigit (b / 16 % 16), hexDigit (b % 16)]

/-- `data.hex().upper()` over a byte string. -/
def bytesHexUpper (l : Bytes) : String := (l.map byteHex).foldl (fun a s => a ++ s) ""

/-- An apostrophe, as it appears inside the generated MIME string. -/
def apos : String := String.mk [Char.ofNat 39]

/-- `while len(l) > cap: l.pop(0)` — evict from the head until the length
is at most `cap` (an empty list is returned for a negative `cap`, a
situation the reachable configurations, whose capacities are clamped to
at least 2, never produce). -/
def popWhileOver {α : Type} (cap : Int) : List α → List α
  | [] => []
  | a :: t => if (((a :: t).length : Nat) : Int) > cap then popWhileOver cap t else a :: t

/-- The parser phase currently stored in `self._parseChunk`. -/
inductive PState where
  | findFtyp
  | findMoov
  | findMoof
  | findMdat
  | moofHunt
deriving DecidableEq, Repr

/-- One element of `self._hlsList`: the dict literal
`{'sequence': …, 'name': …, 'segment': …, 'duration': …}` appended in
`_setSegment`.  Note the source stores `self._sequence` — an `int` — in
the `segment` slot, not the segment's bytes. -/
structure HlsEntry where
  sequence : Int
  name : String
  segment : Int
  duration : ℚ
deriving DecidableEq, Repr

/-- A value held by one key of the `options` dict. -/
inductive PyOptVal where
  | pyStr (s : String)
  | pyInt (n : Int)
  | pyBool (b : Bool)
  | pyNone
deriving DecidableEq, Repr

/-- The `options` dict restricted to the four keys the constructor
inspects; `none` means the key is absent. -/
structure Options where
  hlsBase : Option PyOptVal
  hlsListSize : Option PyOptVal
  hlsListInit : Option PyOptVal
  bufferListSize : Option PyOptVal
deriving DecidableEq, Repr

/-- Python truthiness of the options dict: a dict is truthy iff it is
non-empty. -/
def Options.truthy (o : Options) : Bool :=
  o.hlsBase.isSome || o.hlsListSize.isSome || o.hlsListInit.isSome || o.bufferListSize.isSome

/-- `options[k] == True` comparison used for `hlsListInit` (in Python,
`1 == True` holds). -/
def pyEqTrue : PyOptVal → Bool
  | .pyBool b => b
  | .pyInt n => n == 1
  | _ => false

/-- A Python exception surfaced by the embedded code. -/
inductive PyErr where
  | keyError (k : String)
  | attributeError (a : String)
deriving DecidableEq, Repr

/-- The result of reading the `segment` property: the source's expression
`self._setSegment if (hasattr(self, '_setSegment')) else None` can yield
the bound method object, `None`, or (as the docstring promises) bytes. -/
inductive PyVal where
  | noneVal
  | bytes (b : Bytes)
  | boundMethod (nm : String)
deriving DecidableEq, Repr

/-- The mutable state of an `mp4frag` object.  Attributes the Python
code sets and deletes dynamically are `Option` fields (`none` =
attribute absent).  `clock` is the oracle stream of `time.time()*1000`
values; `published` records every byte string passed to
`self._pipe.send_bytes` in order. -/
structure MState where
  parseChunk : PState
  clock : List Int
  published : List Bytes
  ftyp : Option Bytes
  ftypLength : Option Nat
  moof : Option Bytes
  moofLength : Option Nat
  moofBuffer : Option (List Bytes)
  moofBufferSize : Option Nat
  mdatLength : Option Nat
  mdatBuffer : Option (List Bytes)
  mdatBufferSize : Option Nat
  moofHunts : Option Nat
  moofHuntsLimit : Option Nat
  initialization : Option Bytes
  mime : Option String
  timestamp : Option Int
  duration : Option ℚ
  segment : Option Bytes
  m3u8 : Option String
  hlsBase : Option String
  hlsListSize : Option Int
  hlsList : Option (List HlsEntry)
  hlsListInit : Option Bool
  sequence : Option Int
  bufferList : Option (List Bytes)
  bufferListSize : Option Int
deriving DecidableEq, Repr

/-- The object as it stands after the attribute assignments that do not
depend on `options` (`_parseChunk = _findFtyp`, pipes, `_run`): no
dynamic attribute exists yet. -/
def emptyState (clock : List Int) : MState where
  parseChunk := .findFtyp
  clock := clock
  published := []
  ftyp := none
  ftypLength := none
  moof := none
  moofLength := none
  moofBuffer := none
  moofBufferSize := none
  mdatLength := none
  mdatBuffer := none
  mdatBufferSize := none
  moofHunts := none
  moofHuntsLimit := none
  initialization := none
  mime := none
  timestamp := none
  duration := none
  segment := none
  m3u8 := none
  hlsBase := none
  hlsListSize := none
  hlsList := none
  hlsListInit := none
  sequence := none
  bufferList := none
  bufferListSize := none

/-- `__init__(self, pipe, options)`.  The input pipe and the output pipe
pair are external I/O collaborators and carry no parser state; the
`clock` argument seeds the time oracle.  A `KeyError` escapes when the
code subscripts a missing key. -/
def mp4fragInit (options : Option Options) (clock : List Int) : Except PyErr MState :=
  let s := emptyState clock
  match options with
  | none => Except.ok s
  | some o =>
    if o.truthy then
      let s :=
        match o.hlsBase with
        | some (.pyStr b) =>
          let hsize : Int :=
            match o.hlsListSize with
            | some (.pyInt n) => if n < 2 then 2 else if n > 10 then 10 else n
            | _ => 4
          { s with
              hlsListSize := some hsize
              hlsList := some []
              hlsBase := some b
              sequence := some (-1)
              hlsListInit := some (match o.hlsListInit with
                                   | some v => pyEqTrue v
                                   | none => false) }
        | _ => s
      if o.bufferListSize.isSome then
        -- source line 52 reads options['hlsListSize'] here: a missing key
        -- raises KeyError before the isinstance test can run
        match o.hlsListSize with
        | none => Except.error (.keyError "hlsListSize")
        | some v =>
          let bsize : Int :=
            match v with
            | .pyInt n => if n > 10 then 10 else if n < 2 then 2 else n
            | _ => 2
          Except.ok { s with bufferListSize := some bsize, bufferList := some [] }
      else Except.ok s
    else Except.ok s

/-- `int(round(time.time() * 1000))`: pop the next value from the clock
oracle (0 if the oracle is exhausted, which the theorems never allow). -/
def timeNow (s : MState) : Int × MState :=
  match s.clock with
  | [] => (0, s)
  | t :: ts => (t, { s with clock := ts })

/-- `_parseMoov(chunk)`: store the initialization bytes, derive the MIME
string from the `avcC` marker (appending the audio suffix when `mp4a`
occurs anywhere), capture the clock, and in HLS mode emit the init-mode
playlist. -/
def parseMoov (s : MState) (chunk : Bytes) : MState :=
  let s := { s with initialization := some chunk }
  let audioString := if bfind chunk MP4A ≠ -1 then ", mp4a.40.2" else ""
  let index := bfind chunk AVCC
  if index = -1 then s
  else
    let index := index + 5
    let codecHex := bytesHexUpper ((chunk.drop index.toNat).take 3)
    let s := { s with
      mime := some ("video/mp4; codecs=" ++ apos ++ "avc1." ++ codecHex ++ audioString ++ apos) }
    let tn := timeNow s
    let s := { tn.2 with timestamp := some tn.1 }
    if s.hlsList.isSome && s.hlsListInit.isSome then
      { s with m3u8 := some ("#EXTM3U\n"
          ++ "#EXT-X-VERSION:7\n"
          ++ "#EXT-X-TARGETDURATION:1\n"
          ++ "#EXT-X-MEDIA-SEQUENCE:0\n"
          ++ "#EXT-X-MAP:URI=\"init-" ++ s.hlsBase.getD "" ++ ".mp4\"\n") }
    else s

/-- `_setSegment(chunk)`: record the segment, update duration and
timestamp, maintain the HLS FIFO and the playlist text, maintain the
buffer FIFO, and send the segment down the output pipe (recorded in
`published`).  Reachable callers always have `_timestamp` set
(`_parseMoov` runs first), so the `getD 0` defaults are never consulted
on reachable states. -/
def setSegment (s : MState) (chunk : Bytes) : MState :=
  let s := { s with segment := some chunk }
  let tn := timeNow s
  let currentTime := tn.1
  let s := tn.2
  -- duration = max((currentTime - self._timestamp)/1000, 1); the division
  -- is exact-rational, and max(x, 1) is rendered as the comparison of the
  -- canonical numerator against the (positive) denominator
  let dq : ℚ := Rat.divInt (currentTime - s.timestamp.getD 0) 1000
  let duration : ℚ := if dq.num < (dq.den : Int) then 1 else dq
  let s := { s with duration := some duration, timestamp := some currentTime }
  let s :=
    if s.hlsList.isSome then
      let seq := s.sequence.getD 0 + 1
      let base := s.hlsBase.getD ""
      let entry : HlsEntry :=
        { sequence := seq, name := base ++ toString seq, segment := seq, duration := duration }
      let lst := popWhileOver (s.hlsListSize.getD 0) (s.hlsList.getD [] ++ [entry])
      let header := "#EXTM3U\n"
        ++ "#EXT-X-VERSION:7\n"
        ++ "#EXT-X-TARGETDURATION:" ++ toString (pyRound duration) ++ "\n"
        ++ "#EXT-X-MEDIA-SEQUENCE:" ++ toString ((lst.headD entry).sequence) ++ "\n"
        ++ "#EXT-X-MAP:URI=\"init-" ++ base ++ ".mp4\"\n"
      -- source lines 423-425 append '#EXTINF:%d' and then '%s' (the name)
      -- with no separator between or after them
      let m := lst.foldl
        (fun acc e => acc ++ "#EXTINF:" ++ toString (pyTrunc e.duration) ++ e.name) header
      { s with sequence := some seq, hlsList := some lst, m3u8 := some m }
    else s
  let s :=
    if s.bufferList.isSome then
      let bl := popWhileOver (s.bufferListSize.getD 0)
        (s.bufferList.getD [] ++ [s.segment.getD []])
      { s with bufferList := some bl }
    else s
  { s with published := s.published ++ [s.segment.getD []] }

/-- `_findFtyp(chunk)`; `recur` is the dispatch on the reassigned
`self._parseChunk` for the forwarded tail. -/
def findFtyp (recur : MState → Bytes → MState) (s : MState) (chunk : Bytes) : MState :=
  let chunkLength := chunk.length
  if chunkLength < 8 ∨ bfind chunk FTYP ≠ 4 then s
  else
    let ftypLength := bint (chunk.take 4)
    let s := { s with ftypLength := some ftypLength }
    if ftypLength < chunkLength then
      let s := { s with ftyp := some (chunk.take ftypLength), parseChunk := .findMoov }
      recur s (chunk.drop ftypLength)
    else if ftypLength = chunkLength then
      { s with ftyp := some chunk, parseChunk := .findMoov }
    else s

/-- `_findMoov(chunk)`.  Note the source hands `self._ftyp + chunk` — the
saved ftyp plus the whole current chunk — to `_parseMoov` in both
completing branches. -/
def findMoov (recur : MState → Bytes → MState) (s : MState) (chunk : Bytes) : MState :=
  let chunkLength := chunk.length
  if chunkLength < 8 ∨ bfind chunk MOOV ≠ 4 then s
  else
    let moovLength := bint (chunk.take 4)
    if moovLength < chunkLength then
      let s := parseMoov s (s.ftyp.getD [] ++ chunk)
      let s := { s with ftyp := none, ftypLength := none, parseChunk := .findMoof }
      recur s (chunk.drop moovLength)
    else if moovLength = chunkLength then
      let s := parseMoov s (s.ftyp.getD [] ++ chunk)
      { s with ftyp := none, ftypLength := none, parseChunk := .findMoof }
    else s

/-- `_findMoof(chunk)`: either feed the active accumulator, or scan a
fresh chunk for the `moof` header (with the `mfra` end-marker check and
the hand-off to `_moofHunt` on corruption). -/
def findMoof (recur : MState → Bytes → MState) (s : MState) (chunk : Bytes) : MState :=
  match s.moofBuffer with
  | some buf =>
    let buf := buf ++ [chunk]
    let chunkLength := chunk.length
    let mbs := s.moofBufferSize.getD 0 + chunkLength
    let ml := s.moofLength.getD 0
    if ml = mbs then
      { s with moof := some (bsconcate buf (ml : Int)), moofBuffer := none,
               moofBufferSize := none, parseChunk := .findMdat }
    else if ml < mbs then
      let sliceIndex : Int := (chunkLength : Int) - ((mbs : Int) - (ml : Int))
      let s := { s with moof := some (bsconcate buf (ml : Int)), moofBuffer := none,
                        moofBufferSize := none, parseChunk := .findMdat }
      recur s (pySliceFrom chunk sliceIndex)
    else { s with moofBuffer := some buf, moofBufferSize := some mbs }
  | none =>
    let chunkLength := chunk.length
    if chunkLength < 8 ∨ bfind chunk MOOF ≠ 4 then
      let mfraIndex := bfind chunk MFRA
      if mfraIndex ≠ -1 then s
      else
        let s := { s with moofHunts := some 0, moofHuntsLimit := some 40,
                          parseChunk := .moofHunt }
        recur s chunk
    else
      let moofLength := bint (chunk.take 4)
      let s := { s with moofLength := some moofLength }
      if moofLength = 0 then s
      else if moofLength < chunkLength then
        let s := { s with moof := some (chunk.take moofLength), parseChunk := .findMdat }
        recur s (chunk.drop moofLength)
      else if moofLength = chunkLength then
        { s with moof := some chunk, parseChunk := .findMdat }
      else
        { s with moofBuffer := some [chunk], moofBufferSize := some chunkLength }

/-- `_findMdat(chunk)`.  In the one-shot branch where the mdat length is
strictly below the chunk length (source lines 339-344) the code
concatenates with bound `moofLength + chunkLength` and forwards no tail;
the accumulator branches use `moofLength + mdatLength` and forward the
overflow. -/
def findMdat (recur : MState → Bytes → MState) (s : MState) (chunk : Bytes) : MState :=
  match s.mdatBuffer with
  | some buf =>
    let buf := buf ++ [chunk]
    let chunkLength := chunk.length
    let mbs := s.mdatBufferSize.getD 0 + chunkLength
    let mdl := s.mdatLength.getD 0
    let mfl := s.moofLength.getD 0
    if mdl = mbs then
      let s := setSegment s (bsconcate (s.moof.getD [] :: buf) ((mfl + mdl : Nat) : Int))
      { s with moof := none, mdatBuffer := none, mdatBufferSize := none,
               mdatLength := none, moofLength := none, parseChunk := .findMoof }
    else if mdl < mbs then
      let s := setSegment s (bsconcate (s.moof.getD [] :: buf) ((mfl + mdl : Nat) : Int))
      let sliceIndex : Int := (chunkLength : Int) - ((mbs : Int) - (mdl : Int))
      let s := { s with moof := none, mdatBuffer := none, mdatBufferSize := none,
                        mdatLength := none, moofLength := none, parseChunk := .findMoof }
      recur s (pySliceFrom chunk sliceIndex)
    else { s with mdatBuffer := some buf, mdatBufferSize := some mbs }
  | none =>
    let chunkLength := chunk.length
    if chunkLength < 8 ∨ bfind chunk MDAT ≠ 4 then s
    else
      let mdatLength := bint (chunk.take 4)
      let s := { s with mdatLength := some mdatLength }
      if mdatLength > chunkLength then
        { s with mdatBuffer := some [chunk], mdatBufferSize := some chunkLength }
      else if mdatLength < chunkLength then
        let s := setSegment s
          (bsconcate [s.moof.getD [], chunk] ((s.moofLength.getD 0 + chunkLength : Nat) : Int))
        { s with moof := none, moofLength := none, mdatLength := none,
                 parseChunk := .findMoof }
      else
        let s := setSegment s
          (bsconcate [s.moof.getD [], chunk] ((s.moofLength.getD 0 + mdatLength : Nat) : Int))
        let sliceIndex := mdatLength
        let s := { s with moof := none, moofLength := none, mdatLength := none,
                          parseChunk := .findMoof }
        recur s (chunk.drop sliceIndex)

/-- `_moofHunt(chunk)`: bounded recovery scan for a `moof` tag preceded
by four length bytes. -/
def moofHunt (recur : MState → Bytes → MState) (s : MState) (chunk : Bytes) : MState :=
  let hunts := s.moofHunts.getD 0
  let limit := s.moofHuntsLimit.getD 0
  if hunts < limit then
    let s := { s with moofHunts := some (hunts + 1) }
    let index := bfind chunk MOOF
    if index > 3 ∧ (chunk.length : Int) > index + 3 then
      let s := { s with moofHunts := none, moofHuntsLimit := none, parseChunk := .findMoof }
      recur s (pySliceFrom chunk (index - 4))
    else s
  else s

/-- Dispatch `self._parseChunk(chunk)` on the current parser phase; the
fuel bounds the recursive tail-forwarding depth (each real dispatch
chain is finite, so a large enough fuel reproduces the code exactly). -/
def parseDispatch : Nat → MState → Bytes → MState
  | 0, s, _ => s
  | fuel + 1, s, chunk =>
    match s.parseChunk with
    | .findFtyp => findFtyp (parseDispatch fuel) s chunk
    | .findMoov => findMoov (parseDispatch fuel) s chunk
    | .findMoof => findMoof (parseDispatch fuel) s chunk
    | .findMdat => findMdat (parseDispatch fuel) s chunk
    | .moofHunt => moofHunt (parseDispatch fuel) s chunk

/-- Feed one input chunk to the transform (`_transform` body for a
non-empty read). -/
def feed (s : MState) (chunk : Bytes) : MState := parseDispatch 8 s chunk

/-- `initialization` property. -/
def initializationProp (s : MState) : Option Bytes := s.initialization

/-- `mime` property. -/
def mimeProp (s : MState) : Option String := s.mime

/-- `segment` property: the source returns `self._setSegment` — the bound
method, an attribute that exists on every instance — whenever
`hasattr(self, '_setSegment')` holds, which is always. -/
def hasattrSetSegment (_ : MState) : Bool := true

/-- The value produced by reading the `segment` property. -/
def segmentProp (s : MState) : PyVal :=
  if hasattrSetSegment s then PyVal.boundMethod "_setSegment" else PyVal.noneVal

/-- `timestamp` property: `-1` while the `_timestamp` attribute is
absent. -/
def timestampProp (s : MState) : Int := s.timestamp.getD (-1)

/-- `duration` property: `-1` while the `_duration` attribute is
absent. -/
def durationProp (s : MState) : ℚ := s.duration.getD (-1)

/-- `m3u8` property. -/
def m3u8Prop (s : MState) : Option String := s.m3u8

/-- `bufferList` property. -/
def bufferListProp (s : MState) : Option (List Bytes) :=
  if s.bufferList.isSome ∧ 0 < (s.bufferList.getD []).length then s.bufferList else none

/-- `bufferListConcat()`. -/
def bufferListConcat (s : MState) : Option Bytes :=
  if s.bufferList.isSome ∧ 0 < (s.bufferList.getD []).length then
    some (bsconcate (s.bufferList.getD []) 0)
  else none

/-- `bufferConcat()`: `_bsconcate([self._initialization] + self._bufferList)`
when both attributes exist and the buffer FIFO is non-empty. -/
def bufferConcat (s : MState) : Option Bytes :=
  if s.initialization.isSome ∧ s.bufferList.isSome ∧ 0 < (s.bufferList.getD []).length then
    some (bsconcate (s.initialization.getD [] :: s.bufferList.getD []) 0)
  else none

/-- `getHlsNamedSegment(name)`.  The loop body evaluates
`self._hlsList[i].name`: the entries are dict literals (see
`setSegment`), and attribute access on a Python dict raises
`AttributeError`, so the first iteration raises whenever the list is
non-empty; otherwise the function returns `None`. -/
def getHlsNamedSegment (s : MState) (name : String) : Except PyErr (Option Int) :=
  if name ≠ "" ∧ s.hlsList.isSome ∧ 0 < (s.hlsList.getD []).length then
    Except.error (.attributeError "name")
  else Except.ok Option.none

/-- `getHlsSegment(sequence)`: build the name `'%s%d.m4s'` from
`self._hlsBase` (an absent attribute raises) and delegate. -/
def getHlsSegment (s : MState) (sequence : Int) : Except PyErr (Option Int) :=
  match s.hlsBase with
  | none => Except.error (.attributeError "_hlsBase")
  | some b => getHlsNamedSegment s (b ++ toString sequence ++ ".m4s")

/-- Unwrap a constructor call that is known to succeed (all scenario
constructions below are checked to return `ok`). -/
def initOk (options : Option Options) (clock : List Int) : MState :=
  ((mp4fragInit options clock).toOption).getD (emptyState clock)

/-- A 16-byte `ftyp` box: length field 16, tag, 8 payload bytes. -/
def sFtyp : Bytes := [0, 0, 0, 16] ++ FTYP ++ [1, 2, 3, 4, 5, 6, 7, 8]

/-- A 24-byte `moov` box containing an `avcC` marker whose profile bytes
are `42 C0 1E`. -/
def sMoov : Bytes := [0, 0, 0, 24] ++ MOOV ++ AVCC ++ [0, 0x42, 0xC0, 0x1E, 0, 0, 0, 0, 0, 0, 0, 0]

/-- A 16-byte `moof` box. -/
def sMoof : Bytes := [0, 0, 0, 16] ++ MOOF ++ [10, 11, 12, 13, 14, 15, 16, 17]

/-- A 16-byte `mdat` box. -/
def sMdat : Bytes := [0, 0, 0, 16] ++ MDAT ++ [20, 21, 22, 23, 24, 25, 26, 27]

/-- State after construction with no options and after parsing the
initialization stream `ftyp ++ moov` in one chunk (clock yields 1000 at
`_parseMoov`). -/
def c1S1 : MState := feed (initOk none [1000, 3000]) (sFtyp ++ sMoov)

/-- State after additionally parsing a complete 16-byte `moof` chunk:
the parser waits in FindMdat with the saved moof. -/
def c1S2 : MState := feed c1S1 sMoof

/-- An input chunk holding a complete 16-byte `mdat` box followed by the
first 8 bytes (length field and tag) of the next `moof` box. -/
def c1Chunk3 : Bytes := sMdat ++ ([0, 0, 0, 24] ++ MOOF)

/-- State after feeding `c1Chunk3` in FindMdat: the mdat ends strictly
inside the chunk. -/
def c1Final : MState := feed c1S2 c1Chunk3

/-- An input chunk holding a complete 24-byte `moov` box followed by the
first 8 bytes of the next `moof` box. -/
def c2Chunk2 : Bytes := sMoov ++ ([0, 0, 0, 24] ++ MOOF)

/-- State after construction with no options and after a chunk that is
exactly the 16-byte `ftyp` box. -/
def c2S1 : MState := feed (initOk none [1000]) sFtyp

/-- State after feeding `c2Chunk2` in FindMoov: the moov ends strictly
inside the chunk. -/
def c2Final : MState := feed c2S1 c2Chunk2

/-- A chunk whose 4-byte length field reads zero with an `mdat` tag at
offset 4. -/
def c7Chunk : Bytes := [0, 0, 0, 0] ++ MDAT ++ [30, 31, 32, 33]

/-- State after feeding the zero-length `mdat` chunk in FindMdat. -/
def c7Final : MState := feed c1S2 c7Chunk

/-- Options for scenario S5: `hlsBase="test"`, `hlsListSize=3`. -/
def c6Opts : Options :=
  { hlsBase := some (.pyStr "test"), hlsListSize := some (.pyInt 3),
    hlsListInit := none, bufferListSize := none }

/-- HLS-enabled transform constructed for scenario S5, with the clock
yielding 0 at initialization and then 2000-millisecond steps, so every
segment has duration exactly 2 seconds. -/
def c6S0 : MState := initOk (some c6Opts) [0, 2000, 4000, 6000, 8000, 10000]

/-- S5 run: initialization followed by five `moof ++ mdat` segments. -/
def c6Final : MState :=
  let s := feed c6S0 (sFtyp ++ sMoov)
  let seg := sMoof ++ sMdat
  feed (feed (feed (feed (feed s seg) seg) seg) seg) seg

/-- The playlist text the source renders for scenario S5. -/
def c6CodeString : String :=
  "#EXTM3U\n" ++ "#EXT-X-VERSION:7\n" ++ "#EXT-X-TARGETDURATION:2\n"
    ++ "#EXT-X-MEDIA-SEQUENCE:2\n" ++ "#EXT-X-MAP:URI=\"init-test.mp4\"\n"
    ++ "#EXTINF:2test2" ++ "#EXTINF:2test3" ++ "#EXTINF:2test4"

/-- Options exercising the buffer-size clamp: `hlsListSize=5`,
`bufferListSize=7`. -/
def c5Opts : Options :=
  { hlsBase := some (.pyStr "test"), hlsListSize := some (.pyInt 5),
    hlsListInit := none, bufferListSize := some (.pyInt 7) }

/-- Transform constructed from `c5Opts`. -/
def c5S : MState := initOk (some c5Opts) []

/-- A state with an initialization fragment and two buffered segments,
used to instantiate the buffer-concatenation theorem. -/
def c9W : MState :=
  { emptyState [] with
      initialization := some [1, 2]
      bufferList := some [[3], [4]] }

/-- C1: the spec says every published segment has length
`moof_length + mdat_length` and consists of the moof box followed by the
mdat box with no bytes of any following box.  Evaluating the code at a
chunk in which the mdat ends strictly before the chunk end shows the
published byte string is the saved moof plus the whole chunk (40 bytes,
including the 8 header bytes of the next moof box) instead of the
32-byte moof+mdat pair: the one-shot branch of `_findMdat` truncates at
`moofLength + chunkLength` and forwards no tail. -/
theorem c1_segment_includes_following_bytes :
    c1Final.published = [sMoof ++ c1Chunk3] ∧
    (sMoof ++ c1Chunk3).length = 40 ∧
    bint (sMoof.take 4) = 16 ∧ bint (c1Chunk3.take 4) = 16 ∧
    c1Final.published ≠ [sMoof ++ sMdat] ∧
    (sMoof ++ sMdat).length = 32 := by decide

/-- C2: the spec says that when the moov completes inside a chunk the
stored initialization fragment is the saved ftyp plus exactly the first
`moov_length` bytes of the chunk.  Evaluating the code at a chunk whose
moov box (24 bytes) is followed by 8 further bytes shows
`initialization()` is the ftyp plus the whole 32-byte chunk (48 bytes in
total): `_findMoov` passes `self._ftyp + chunk` unsliced to
`_parseMoov`. -/
theorem c2_initialization_includes_tail :
    initializationProp c2Final = some (sFtyp ++ c2Chunk2) ∧
    (sFtyp ++ c2Chunk2).length = 48 ∧
    bint (c2Chunk2.take 4) = 24 ∧
    c2Chunk2.take 24 = sMoov ∧
    initializationProp c2Final ≠ some (sFtyp ++ sMoov) ∧
    (sFtyp ++ sMoov).length = 40 := by decide

/-- C3: the spec says `get_hls_segment(s)` returns the bytes of the
segment whose entry is resident and never raises.  In the state reached
after five publications the entries with sequences 2, 3, 4 are resident
(and their `segment` slot holds the sequence integer, not bytes), yet
the lookup raises `AttributeError`: the loop reads `self._hlsList[i].name`
and the entries are plain dicts. -/
theorem c3_hls_lookup_raises :
    c6Final.hlsList = some [⟨2, "test2", 2, 2⟩, ⟨3, "test3", 3, 2⟩, ⟨4, "test4", 4, 2⟩] ∧
    getHlsSegment c6Final 2 = Except.error (PyErr.attributeError "name") ∧
    getHlsSegment c6Final 3 = Except.error (PyErr.attributeError "name") :=
  ⟨by decide, rfl, rfl⟩

/-- C4: the spec says the segment accessor is `None` before the first
publication and the latest segment bytes afterwards.  The source
returns `self._setSegment` — the bound method, which exists on every
instance — so the property is never `None` and never bytes, even in a
state whose `_segment` attribute does hold the published bytes. -/
theorem c4_segment_prop_returns_method :
    segmentProp (initOk none []) = PyVal.boundMethod "_setSegment" ∧
    segmentProp (initOk none []) ≠ PyVal.noneVal ∧
    (∀ b : Bytes, segmentProp c1Final ≠ PyVal.bytes b) ∧
    c1Final.segment = some (sMoof ++ c1Chunk3) := by
  refine ⟨rfl, by decide, fun b => ?_, by decide⟩
  simp [segmentProp, hasattrSetSegment]

/-- C5: the spec says `buffer_list_size` is the clamp of the
`bufferListSize` option itself.  Constructing with `hlsListSize = 5` and
`bufferListSize = 7` yields `_bufferListSize = 5`: the buffer branch of
`__init__` clamps `options['hlsListSize']`, not `options['bufferListSize']`
(the `hls_list_size` half of the claim does hold). -/
theorem c5_buffer_size_reads_hls_field :
    mp4fragInit (some c5Opts) [] = Except.ok c5S ∧
    c5Opts.bufferListSize = some (PyOptVal.pyInt 7) ∧
    c5Opts.hlsListSize = some (PyOptVal.pyInt 5) ∧
    c5S.bufferListSize = some 5 ∧
    c5S.bufferListSize ≠ some 7 ∧
    c5S.hlsListSize = some 5 :=
  ⟨rfl, rfl, rfl, by decide, by decide, by decide⟩

/-- C6: scenario S5 (`hls_base="test"`, `hls_list_size=3`, five 2-second
segments).  The rendered playlist does contain
`EXT-X-MEDIA-SEQUENCE:2`, `EXT-X-TARGETDURATION:2` and exactly the
entries test2, test3, test4, but each `EXTINF:2` is directly followed by
the entry name with no newline between them, contradicting the claimed
line structure. -/
theorem c6_m3u8_missing_newline :
    m3u8Prop c6Final = some c6CodeString ∧
    strFind c6CodeString ("#EXTINF:2" ++ "test2") ≠ -1 ∧
    strFind c6CodeString ("#EXTINF:2" ++ "\n" ++ "test2") = -1 ∧
    strFind c6CodeString "#EXT-X-MEDIA-SEQUENCE:2" ≠ -1 ∧
    strFind c6CodeString "#EXT-X-TARGETDURATION:2" ≠ -1 ∧
    c6Final.m3u8 = some c6CodeString := by decide

/-- C7: the spec says a zero box-length is rejected in every Find*
state with the state unchanged and no segment produced.  Feeding a
chunk whose length field reads zero with an `mdat` tag at offset 4 to
the FindMdat state publishes a segment (the saved moof plus the whole
chunk) and moves the parser to FindMoof: `_findMdat` has no zero-length
check, so `mdatLength = 0 < chunkLength` takes the publishing branch. -/
theorem c7_zero_mdat_publishes :
    bint (c7Chunk.take 4) = 0 ∧
    c1S2.parseChunk = PState.findMdat ∧
    c1S2.published = [] ∧
    c7Final.published = [sMoof ++ c7Chunk] ∧
    c7Final.parseChunk = PState.findMoof := by decide

/-- C8 counterexample: after construction and the parse of `ftyp+moov`
no segment has been published, yet the timestamp accessor returns the
wall-clock capture 1000 rather than the sentinel -1, refuting the claim
that it stays -1 until the first publication. -/
theorem c8_timestamp_counterexample :
    c1S1.published = [] ∧
    c1S1.initialization = some (sFtyp ++ sMoov) ∧
    timestampProp c1S1 = 1000 ∧
    timestampProp c1S1 ≠ -1 := by decide

/-- C8 amended: the timestamp accessor returns -1 only until the moov
parse finds the `avcC` marker; `_parseMoov` then captures the wall
clock, and the accessor returns that capture from initialization
onwards, before any segment is published. -/
theorem c8_timestamp_amended (s : MState) (chunk : Bytes) (t : Int) (r : List Int)
    (hts : s.timestamp = none) (hclk : s.clock = t :: r)
    (havc : bfind chunk AVCC ≠ -1) :
    timestampProp s = -1 ∧ (parseMoov s chunk).timestamp = some t := by
  constructor
  · simp [timestampProp, hts]
  · simp only [parseMoov, timeNow]
    rw [if_neg havc]
    simp only [hclk]
    split <;> rfl

/-- C8 amended, instantiated: a fresh state with clock value 7000 and
the `ftyp+moov` bytes containing `avcC`. -/
theorem c8_timestamp_amended_witness :
    timestampProp (emptyState [7000]) = -1 ∧
    (parseMoov (emptyState [7000]) (sFtyp ++ sMoov)).timestamp = some 7000 :=
  c8_timestamp_amended (emptyState [7000]) (sFtyp ++ sMoov) 7000 [] rfl rfl (by decide)

/-- C9: whenever the initialization fragment exists and the buffer FIFO
is non-empty, `bufferListConcat()` is the in-order concatenation of the
FIFO entries and `bufferConcat()` is the initialization followed by
`bufferListConcat()`. -/
theorem c9_buffer_concat_relation (s : MState) (ini : Bytes) (l : List Bytes)
    (h1 : s.initialization = some ini) (h2 : s.bufferList = some l)
    (h3 : 0 < l.length) :
    bufferListConcat s = some l.flatten ∧
    bufferConcat s = some (ini ++ l.flatten) ∧
    bufferConcat s = (bufferListConcat s).map (fun b => ini ++ b) := by
  have hb : bufferListConcat s = some l.flatten := by
    simp [bufferListConcat, h2, h3, bsconcate]
  have hc : bufferConcat s = some (ini ++ l.flatten) := by
    simp [bufferConcat, h1, h2, h3, bsconcate]
  exact ⟨hb, hc, by rw [hb, hc]; rfl⟩

/-- C9 instantiated at a state holding initialization `[1, 2]` and the
buffered segments `[3]` and `[4]`. -/
theorem c9_buffer_concat_relation_witness :
    bufferListConcat c9W = some [3, 4] ∧
    bufferConcat c9W = some [1, 2, 3, 4] ∧
    bufferConcat c9W = (bufferListConcat c9W).map (fun b => [1, 2] ++ b) :=
  c9_buffer_concat_relation c9W [1, 2] [[3], [4]] rfl rfl (by decide)

/-- C10: constructing with an options dict containing `bufferListSize`
but no `hlsListSize` raises `KeyError`, whatever the other keys hold:
the buffer branch subscripts `options['hlsListSize']` unconditionally. -/
theorem c10_keyerror_without_hlsListSize (hb hi : Option PyOptVal) (bv : PyOptVal)
    (c : List Int) :
    mp4fragInit (some { hlsBase := hb, hlsListSize := none,
                        hlsListInit := hi, bufferListSize := some bv }) c
      = Except.error (PyErr.keyError "hlsListSize") := by
  cases hb <;> cases hi <;> rfl

end Mp4frag

